import Mathlib

/-!
Shallow embedding of `src/lib/adf_obs.py` (class `AdfObs`) from the ADF
repository: the constructor loads a variable-defaults catalog, and — when the
run compares against observations — resolves, for each requested diagnostic
variable, an observation file together with a dataset name and an observation
variable name.  The read accessors return `copy.copy` of the internal state.

The embedding keeps the Python semantics that the code relies on:
YAML values are modelled by `YVal`; the Python `in` and subscript operators
on such values are modelled by `pyIn` and `pyIndex`, including the
`TypeError` / `KeyError` they can raise; `pathlib` joins and the `.name`
attribute are modelled on normalized POSIX path strings; the filesystem is a
predicate `fs : String → Bool` giving the result of `Path.is_file`; ordered
Python dictionaries are association lists with first-match lookup and
update-in-place assignment.  A second, small heap model at the end of the
definitions captures Python object identity, which is what `copy.copy`
(a shallow copy) in the accessors is about.
-/

/-- Parsed YAML values as produced by `yaml.load` with the safe loader for the
variable-defaults file: null, booleans, strings, and string-keyed mappings. -/
inductive YVal where
  | vnull : YVal
  | vbool : Bool → YVal
  | vstr : String → YVal
  | vdict : List (String × YVal) → YVal

/-- First-match lookup in an ordered string-keyed association list (Python
dictionaries preserve insertion order). -/
def lookupDict (d : List (String × YVal)) (k : String) : Option YVal :=
  (d.find? (fun kv => kv.1 == k)).map (fun kv => kv.2)

/-- Character-list prefix match, used for the Python substring test. -/
def charsMatch : List Char → List Char → Bool
  | [], _ => true
  | _ :: _, [] => false
  | p :: ps, c :: cs => p == c && charsMatch ps cs

/-- Character-list substring match, used for the Python substring test. -/
def charsContain (pat : List Char) : List Char → Bool
  | [] => charsMatch pat []
  | c :: cs => charsMatch pat (c :: cs) || charsContain pat cs

/-- Python substring test `pat in s` for strings. -/
def strContainsSub (s pat : String) : Bool := charsContain pat.data s.data

/-- Python exceptions that the embedded code can raise. -/
inductive PyErr where
  | typeError : String → PyErr
  | keyError : String → PyErr
  | ioError : String → PyErr
deriving DecidableEq

/-- Python membership operator `key in v` with a string left operand: key
membership on dictionaries, substring test on strings, and a `TypeError` on
values that are not iterable (null, booleans). -/
def pyIn (key : String) : YVal → Except PyErr Bool
  | .vdict d => .ok (d.any (fun kv => kv.1 == key))
  | .vstr s => .ok (strContainsSub s key)
  | .vnull => .error (.typeError "argument of type NoneType is not iterable")
  | .vbool _ => .error (.typeError "argument of type bool is not iterable")

/-- Python subscript `v[key]` with a string key: first-match lookup on
dictionaries (`KeyError` when absent) and a `TypeError` on anything else. -/
def pyIndex (v : YVal) (key : String) : Except PyErr YVal :=
  match v with
  | .vdict d =>
      match d.find? (fun kv => kv.1 == key) with
      | some kv => .ok kv.2
      | none => .error (.keyError key)
  | .vstr _ => .error (.typeError "string indices must be integers")
  | .vnull => .error (.typeError "NoneType object is not subscriptable")
  | .vbool _ => .error (.typeError "bool object is not subscriptable")

/-- The `Path(...)` constructor applied to a YAML value: accepts strings and
raises a `TypeError` otherwise. -/
def asPathStr : YVal → Except PyErr String
  | .vstr s => .ok s
  | _ => .error (.typeError "argument should be a str or an os.PathLike object")

/-- POSIX absolute-path test, as used by `pathlib`: the path starts with a
slash. -/
def isAbsPath (p : String) : Bool :=
  match p.data with
  | [] => false
  | c :: _ => c == '/'

/-- The `pathlib` join `Path(base) / Path(p)` on normalized POSIX path
strings: when `p` is absolute the left operand is discarded, otherwise the
components are concatenated. -/
def pathJoin (base p : String) : String :=
  if isAbsPath p then p else base ++ "/" ++ p

/-- Split a character list at a separator, like `String.splitOn` for a
one-character separator. -/
def splitOnChar (sep : Char) : List Char → List (List Char)
  | [] => [[]]
  | c :: cs =>
      let r := splitOnChar sep cs
      if c == sep then [] :: r
      else
        match r with
        | [] => [[c]]
        | x :: xs => (c :: x) :: xs

/-- The `pathlib` attribute `.name`: the final nonempty path component. -/
def pathName (p : String) : String :=
  String.mk (((splitOnChar '/' p.data).filter (fun c => c != [])).getLastD [])

/-- Per-variable skip notices written to the debug log (lines 178-192 of
`adf_obs.py`); the payloads are the data interpolated into the messages. -/
inductive Notice where
  | obs_file_not_found : String → String → Notice
  | no_obs_file_listed : String → Notice
  | var_not_in_defaults : String → Notice
deriving DecidableEq

/-- An entry of the observation dictionary `self.__var_obs_dict` (lines
171-174): the accepted path, the dataset name and the observation variable
name exactly as stored by the code (the latter two are stored as the raw
YAML values, the code performs no conversion). -/
structure ResolvedObs where
  obs_file : String
  obs_name : YVal
  obs_var : YVal

/-- Outcome of the loop body for one variable: either a skip with its logged
notice, or acceptance of a resolved observation record. -/
inductive VarResult where
  | skip : Notice → VarResult
  | accept : ResolvedObs → VarResult

/-- Lines 153-174 of `adf_obs.py`: once a file has been found at `path`,
build the stored record.  `obs_name` is the `obs_name` field of the record
when present, else the file name of the accepted path; `obs_var` is the
`obs_var_name` field when present, else the variable name itself. -/
def mkResolved (default_var_dict : YVal) (var : String) (path : String) :
    Except PyErr ResolvedObs :=
  match pyIn "obs_name" default_var_dict with
  | .error e => .error e
  | .ok hasName =>
    match (if hasName then pyIndex default_var_dict "obs_name"
           else .ok (.vstr (pathName path))) with
    | .error e => .error e
    | .ok obs_name =>
      match pyIn "obs_var_name" default_var_dict with
      | .error e => .error e
      | .ok hasVarName =>
        match (if hasVarName then pyIndex default_var_dict "obs_var_name"
               else .ok (.vstr var)) with
        | .error e => .error e
        | .ok obs_var => .ok ⟨path, obs_name, obs_var⟩

/-- Lines 126-193 of `adf_obs.py`: the body of the resolution loop for a
single variable `var`.  Returns the list of paths passed to `is_file`
(in the order they are checked) together with the outcome.  `vdefs` is the
defaults dictionary in use, `obs_data_loc` the optional fallback directory
(Python truthiness: `none` and the empty string are falsy) and `fs` the
filesystem `is_file` predicate. -/
def resolveVar (vdefs : List (String × YVal)) (obs_data_loc : Option String)
    (fs : String → Bool) (var : String) : Except PyErr (List String × VarResult) :=
  if vdefs.any (fun kv => kv.1 == var) then
    match pyIndex (YVal.vdict vdefs) var with
    | .error e => .error e
    | .ok default_var_dict =>
      match pyIn "obs_file" default_var_dict with
      | .error e => .error e
      | .ok false => .ok ([], .skip (.no_obs_file_listed var))
      | .ok true =>
        match pyIndex default_var_dict "obs_file" with
        | .error e => .error e
        | .ok fileVal =>
          match asPathStr fileVal with
          | .error e => .error e
          | .ok s =>
            if fs s then
              match mkResolved default_var_dict var s with
              | .error e => .error e
              | .ok r => .ok ([s], .accept r)
            else
              match obs_data_loc with
              | none => .ok ([s], .skip (.obs_file_not_found s var))
              | some f =>
                if f == "" then .ok ([s], .skip (.obs_file_not_found s var))
                else
                  if fs (pathJoin f s) then
                    match mkResolved default_var_dict var (pathJoin f s) with
                    | .error e => .error e
                    | .ok r => .ok ([s, pathJoin f s], .accept r)
                  else .ok ([s, pathJoin f s], .skip (.obs_file_not_found s var))
  else .ok ([], .skip (.var_not_in_defaults var))

/-- State threaded through the resolution loop: the observation dictionary
being built, the debug-log notices, and every path passed to `is_file`. -/
structure LoopState where
  var_obs_dict : List (String × ResolvedObs)
  notices : List Notice
  checks : List String

/-- Python dictionary assignment `d[k] = v` on an ordered association list:
an existing key keeps its position and has its value replaced, a new key is
appended at the end. -/
def dictInsert (d : List (String × ResolvedObs)) (k : String) (v : ResolvedObs) :
    List (String × ResolvedObs) :=
  if d.any (fun kv => kv.1 == k) then
    d.map (fun kv => if kv.1 == k then (k, v) else kv)
  else d ++ [(k, v)]

/-- One iteration of the resolution loop applied to the loop state.  The body
(lines 126-193) reads only per-variable data; its only state effects are the
debug-log notices and the assignment `self.__var_obs_dict[var] = ...`, so it
is embedded as `resolveVar` followed by the state update. -/
def processVar (vdefs : List (String × YVal)) (obs_data_loc : Option String)
    (fs : String → Bool) (st : LoopState) (var : String) : Except PyErr LoopState :=
  match resolveVar vdefs obs_data_loc fs var with
  | .error e => .error e
  | .ok (cks, .skip n) =>
      .ok { st with notices := st.notices ++ [n], checks := st.checks ++ cks }
  | .ok (cks, .accept r) =>
      .ok { st with var_obs_dict := dictInsert st.var_obs_dict var r,
                    checks := st.checks ++ cks }

/-- Lines 123-194 of `adf_obs.py`: the loop `for var in self.__diag_var_list`,
aborting the whole pass when an iteration raises. -/
def runLoop (vdefs : List (String × YVal)) (obs_data_loc : Option String)
    (fs : String → Bool) : LoopState → List String → Except PyErr LoopState
  | st, [] => .ok st
  | st, var :: rest =>
      match processVar vdefs obs_data_loc fs st var with
      | .error e => .error e
      | .ok st1 => runLoop vdefs obs_data_loc fs st1 rest

/-- Configuration values read from the `diag_basic_info` section of the
config file (lines 73, 92, 95, 105): `use_defaults`, the required
`diag_var_list`, `compare_obs`, and the optional fallback directory
`obs_data_loc`. -/
structure Config where
  use_defaults : Bool
  diag_var_list : List String
  compare_obs : Bool
  obs_data_loc : Option String

/-- The observable state of a successfully constructed `AdfObs` object,
together with the effects of construction: the notices written to the debug
log, the paths passed to `is_file`, and whether the multi-line warning of
lines 196-205 was printed to the screen. -/
structure AdfObsState where
  use_defaults : Bool
  variable_defaults : List (String × YVal)
  diag_var_list : List String
  compare_obs : Bool
  var_obs_dict : List (String × ResolvedObs)
  notices : List Notice
  checks : List String
  warned : Bool

/-- Opening and parsing the variable-defaults YAML file selected by the
config (lines 79-85 and 110-116 select the same file both times):
`defaultsSrc` is its parsed content, `none` when the file cannot be opened,
in which case `open` raises. -/
def loadDefaultsFile (defaultsSrc : Option (List (String × YVal))) :
    Except PyErr (List (String × YVal)) :=
  match defaultsSrc with
  | some d => .ok d
  | none => .error (.ioError "No such file or directory")

/-- Lines 54-205 of `adf_obs.py`: the `AdfObs` constructor after the config
has been read.  Loads the defaults catalog when `use_defaults` is set
(lines 77-89); stops after recording an empty observation dictionary when
`compare_obs` is false (lines 98-102); otherwise re-loads the defaults file
when the stored catalog is empty (lines 107-120), runs the resolution loop,
and prints the warning exactly when the resulting dictionary is empty
(lines 196-205). -/
def adfObsInit (cfg : Config) (defaultsSrc : Option (List (String × YVal)))
    (fs : String → Bool) : Except PyErr AdfObsState :=
  match (if cfg.use_defaults then loadDefaultsFile defaultsSrc else .ok []) with
  | .error e => .error e
  | .ok variable_defaults =>
    let base : AdfObsState :=
      { use_defaults := cfg.use_defaults
        variable_defaults := variable_defaults
        diag_var_list := cfg.diag_var_list
        compare_obs := cfg.compare_obs
        var_obs_dict := []
        notices := []
        checks := []
        warned := false }
    if cfg.compare_obs then
      match (if variable_defaults.isEmpty then loadDefaultsFile defaultsSrc
             else .ok variable_defaults) with
      | .error e => .error e
      | .ok vdefs =>
        match runLoop vdefs cfg.obs_data_loc fs
            { var_obs_dict := [], notices := [], checks := [] }
            cfg.diag_var_list with
        | .error e => .error e
        | .ok st =>
          .ok { base with var_obs_dict := st.var_obs_dict,
                          notices := st.notices,
                          checks := st.checks,
                          warned := st.var_obs_dict.isEmpty }
    else .ok base

/-- Projection of the outcome of `resolveVar`, dropping the recorded
filesystem checks. -/
def outcomeOf (x : Except PyErr (List String × VarResult)) : Except PyErr VarResult :=
  match x with
  | .error e => .error e
  | .ok p => .ok p.2

/-!
Heap model for the read accessors (lines 209-245 of `adf_obs.py`).  The pure
model above cannot express what `copy.copy` does, because that is a statement
about Python object identity: a shallow copy allocates a new top-level
dictionary whose values are the same references as before.  The heap maps
addresses to dictionary objects; dictionary values are either immutable
primitives or references to other heap objects.  The internal
`self.__var_obs_dict` (and `self.__variable_defaults`) is a dictionary whose
values are references to the per-variable record dictionaries.
-/

/-- Heap addresses of Python objects. -/
abbrev Addr := Nat

/-- A Python value stored in a dictionary slot: an immutable primitive, or a
reference to a mutable heap object. -/
inductive PVal where
  | prim : YVal → PVal
  | ref : Addr → PVal

/-- A Python dictionary object: ordered string-keyed slots. -/
abbrev PyDict := List (String × PVal)

/-- The mutable heap of dictionary objects. -/
structure Heap where
  cells : List (Addr × PyDict)

/-- Dereference an address. -/
def heapGet (h : Heap) (a : Addr) : Option PyDict :=
  (h.cells.find? (fun c => c.1 == a)).map (fun c => c.2)

/-- Python dictionary assignment `d[k] = v` on a dictionary object. -/
def pdictSet (d : PyDict) (k : String) (v : PVal) : PyDict :=
  if d.any (fun kv => kv.1 == k) then
    d.map (fun kv => if kv.1 == k then (k, v) else kv)
  else d ++ [(k, v)]

/-- Mutation `obj[k] = v` of the dictionary object at address `a`. -/
def setItem (h : Heap) (a : Addr) (k : String) (v : PVal) : Heap :=
  ⟨h.cells.map (fun c => if c.1 == a then (c.1, pdictSet c.2 k v) else c)⟩

/-- A fresh address, strictly larger than every live address. -/
def freshAddr (h : Heap) : Addr :=
  (h.cells.map (fun c => c.1)).foldr (fun x m => max x m) 0 + 1

/-- Python `copy.copy` of the dictionary object at `a`: allocate a fresh
dictionary with the same top-level key/value pairs; nested references are
shared, not cloned. -/
def copyCopy (h : Heap) (a : Addr) : Heap × Addr :=
  match heapGet h a with
  | some d => (⟨h.cells ++ [(freshAddr h, d)]⟩, freshAddr h)
  | none => (h, a)

/-- Read `obj[k]` from the dictionary object at address `a`. -/
def getItem (h : Heap) (a : Addr) (k : String) : Option PVal :=
  match heapGet h a with
  | some d => (d.find? (fun kv => kv.1 == k)).map (fun kv => kv.2)
  | none => none

/-- Dereference a slot value one level. -/
def derefOne (h : Heap) : PVal → Option PyDict
  | .ref a => heapGet h a
  | .prim _ => none

/-- View of the dictionary at `a` with every nested reference dereferenced
one level: the internal observation dictionary together with the contents of
its per-variable record objects. -/
def deepView (h : Heap) (a : Addr) : Option (List (String × Option PyDict)) :=
  (heapGet h a).map (fun d => d.map (fun kv => (kv.1, derefOne h kv.2)))

/-- The `var_obs_dict` property (lines 240-245):
`return copy.copy(self.__var_obs_dict)`. -/
def var_obs_dict_prop (h : Heap) (selfDict : Addr) : Heap × Addr :=
  copyCopy h selfDict

/-- The `variable_defaults` property (lines 210-215):
`return copy.copy(self.__variable_defaults)`. -/
def variable_defaults_prop (h : Heap) (selfDict : Addr) : Heap × Addr :=
  copyCopy h selfDict

/-- Extract the string payload of a primitive slot value, used to observe a
field of a nested record. -/
def pvalStr : Option PVal → Option String
  | some (.prim (.vstr s)) => some s
  | _ => none

/-- Observe field `k2` of the record referenced by key `k1` of the
dictionary at address `a`. -/
def nestedField (h : Heap) (a : Addr) (k1 k2 : String) : Option String :=
  match getItem h a k1 with
  | some (.ref b) => pvalStr (getItem h b k2)
  | some (.prim _) => none
  | none => none

/-!
Proof layer: characterizations of the definitions above.
-/

/-- The stored dataset name for a record `ed`: its `obs_name` field when
present, else the file name of the accepted path. -/
def obsNameOf (ed : List (String × YVal)) (path : String) : YVal :=
  (lookupDict ed "obs_name").getD (.vstr (pathName path))

/-- The stored observation variable name for a record `ed`: its
`obs_var_name` field when present, else the variable name itself. -/
def obsVarOf (ed : List (String × YVal)) (var : String) : YVal :=
  (lookupDict ed "obs_var_name").getD (.vstr var)

/-- The pair inserted into the observation dictionary by one loop iteration,
when the iteration accepts. -/
def acceptPair (vdefs : List (String × YVal)) (odl : Option String)
    (fs : String → Bool) (var : String) : Option (String × ResolvedObs) :=
  match resolveVar vdefs odl fs var with
  | .ok (_, .accept r) => some (var, r)
  | _ => none

/-- The requested variable list with every later duplicate removed, relative
to a set of already-seen names: the subsequence of first occurrences. -/
def dedupFirstFrom : List String → List String → List String
  | _, [] => []
  | seen, x :: xs =>
      if x ∈ seen then dedupFirstFrom seen xs
      else x :: dedupFirstFrom (seen ++ [x]) xs

/-- The subsequence of first occurrences of a list. -/
def dedupFirst (l : List String) : List String := dedupFirstFrom [] l

theorem any_eq_find_isSome {α : Type} (p : α → Bool) (l : List α) :
    l.any p = (l.find? p).isSome := by
  induction l with
  | nil => rfl
  | cons x xs ih => cases hx : p x <;> simp [List.any_cons, List.find?_cons, hx, ih]

theorem mkResolved_eq (ed : List (String × YVal)) (var path : String) :
    mkResolved (.vdict ed) var path = .ok ⟨path, obsNameOf ed path, obsVarOf ed var⟩ := by
  unfold mkResolved obsNameOf obsVarOf lookupDict
  simp only [pyIn, any_eq_find_isSome]
  cases h1 : ed.find? (fun kv => kv.1 == "obs_name") <;>
    cases h2 : ed.find? (fun kv => kv.1 == "obs_var_name") <;>
      simp [h1, h2, pyIndex]

theorem resolveVar_with_file (vdefs : List (String × YVal)) (odl : Option String)
    (fs : String → Bool) (var : String) (ed : List (String × YVal)) (s : String)
    (h1 : lookupDict vdefs var = some (.vdict ed))
    (h2 : lookupDict ed "obs_file" = some (.vstr s)) :
    resolveVar vdefs odl fs var =
      if fs s then
        .ok ([s], .accept ⟨s, obsNameOf ed s, obsVarOf ed var⟩)
      else
        match odl with
        | none => .ok ([s], .skip (.obs_file_not_found s var))
        | some f =>
          if f == "" then .ok ([s], .skip (.obs_file_not_found s var))
          else if fs (pathJoin f s) then
            .ok ([s, pathJoin f s],
                 .accept ⟨pathJoin f s, obsNameOf ed (pathJoin f s), obsVarOf ed var⟩)
          else .ok ([s, pathJoin f s], .skip (.obs_file_not_found s var)) := by
  simp only [lookupDict, Option.map_eq_some'] at h1 h2
  obtain ⟨kv, hf, hkv⟩ := h1
  obtain ⟨kv2, hf2, hkv2⟩ := h2
  unfold resolveVar
  rw [any_eq_find_isSome, hf]
  simp only [Option.isSome_some, if_true, pyIndex, hf, hkv, pyIn,
    any_eq_find_isSome, hf2, Option.isSome_some, hf2, hkv2, asPathStr,
    mkResolved_eq]

theorem resolveVar_accept_inv (vdefs : List (String × YVal)) (odl : Option String)
    (fs : String → Bool) (var : String) (cks : List String) (r : ResolvedObs)
    (h : resolveVar vdefs odl fs var = .ok (cks, .accept r)) :
    ∃ ed s, lookupDict vdefs var = some (.vdict ed) ∧
      lookupDict ed "obs_file" = some (.vstr s) ∧
      ((fs s = true ∧ r = ⟨s, obsNameOf ed s, obsVarOf ed var⟩) ∨
       (fs s = false ∧ ∃ f, odl = some f ∧ (f == "") = false ∧
          fs (pathJoin f s) = true ∧
          r = ⟨pathJoin f s, obsNameOf ed (pathJoin f s), obsVarOf ed var⟩)) := by
  unfold resolveVar at h
  rw [any_eq_find_isSome] at h
  cases hf : vdefs.find? (fun kv => kv.1 == var) with
  | none => rw [hf] at h; simp at h
  | some kv =>
      rw [hf] at h
      simp only [Option.isSome_some, if_true, pyIndex, hf] at h
      cases hkv : kv.2 with
      | vnull => rw [hkv] at h; simp [pyIn] at h
      | vbool b => rw [hkv] at h; simp [pyIn] at h
      | vstr t =>
          rw [hkv] at h
          simp only [pyIn] at h
          cases hc : strContainsSub t "obs_file" <;>
            rw [hc] at h <;> simp [pyIndex] at h
      | vdict ed =>
          rw [hkv] at h
          simp only [pyIn, any_eq_find_isSome] at h
          cases hf2 : ed.find? (fun kv => kv.1 == "obs_file") with
          | none => rw [hf2] at h; simp at h
          | some kv2 =>
              rw [hf2] at h
              simp only [Option.isSome_some, pyIndex, hf2] at h
              cases hkv2 : kv2.2 with
              | vnull => rw [hkv2] at h; simp [asPathStr] at h
              | vbool b => rw [hkv2] at h; simp [asPathStr] at h
              | vdict d2 => rw [hkv2] at h; simp [asPathStr] at h
              | vstr s =>
                  rw [hkv2] at h
                  simp only [asPathStr, mkResolved_eq] at h
                  refine ⟨ed, s, ?_, ?_, ?_⟩
                  · simp [lookupDict, hf, hkv]
                  · simp [lookupDict, hf2, hkv2]
                  · split at h
                    · rename_i hfs
                      cases h
                      exact Or.inl ⟨hfs, rfl⟩
                    · rename_i hfs
                      split at h
                      · simp at h
                      · rename_i f
                        split at h
                        · simp at h
                        · rename_i hfe
                          split at h
                          · rename_i hfs2
                            cases h
                            refine Or.inr ⟨?_, f, rfl, ?_, hfs2, rfl⟩
                            · simpa using hfs
                            · simpa using hfe
                          · simp at h

theorem acceptPair_fst (vdefs : List (String × YVal)) (odl : Option String)
    (fs : String → Bool) (v : String) (p : String × ResolvedObs)
    (h : acceptPair vdefs odl fs v = some p) : p.1 = v := by
  unfold acceptPair at h
  cases hr : resolveVar vdefs odl fs v with
  | error e => rw [hr] at h; simp at h
  | ok q =>
      rw [hr] at h
      cases q with
      | mk cks vr =>
          cases vr with
          | skip n => simp at h
          | accept r => simp at h; subst h; rfl

theorem processVar_ok (vdefs : List (String × YVal)) (odl : Option String)
    (fs : String → Bool) (st : LoopState) (var : String) (st' : LoopState)
    (h : processVar vdefs odl fs st var = .ok st') :
    (acceptPair vdefs odl fs var = none ∧ st'.var_obs_dict = st.var_obs_dict) ∨
    (∃ r, acceptPair vdefs odl fs var = some (var, r) ∧
       st'.var_obs_dict = dictInsert st.var_obs_dict var r) := by
  unfold processVar at h
  unfold acceptPair
  cases hr : resolveVar vdefs odl fs var with
  | error e => rw [hr] at h; simp at h
  | ok q =>
      rw [hr] at h
      cases q with
      | mk cks vr =>
          cases vr with
          | skip n =>
              left
              refine ⟨rfl, ?_⟩
              cases h
              rfl
          | accept r =>
              right
              refine ⟨r, rfl, ?_⟩
              cases h
              rfl

theorem keys_nodup_eq_of_mem {α : Type} (d : List (String × α))
    (hnd : (d.map Prod.fst).Nodup) (k : String) (a b : α)
    (ha : (k, a) ∈ d) (hb : (k, b) ∈ d) : a = b := by
  induction d with
  | nil => cases ha
  | cons x xs ih =>
      simp only [List.map_cons, List.nodup_cons] at hnd
      rcases List.mem_cons.mp ha with ha1 | ha2 <;>
        rcases List.mem_cons.mp hb with hb1 | hb2
      · rw [← ha1] at hb1; exact (Prod.mk.injEq _ _ _ _ ▸ hb1).2.symm
      · exfalso
        apply hnd.1
        rw [← ha1]
        exact List.mem_map.mpr ⟨(k, b), hb2, rfl⟩
      · exfalso
        apply hnd.1
        rw [← hb1]
        exact List.mem_map.mpr ⟨(k, a), ha2, rfl⟩
      · exact ih hnd.2 ha2 hb2

theorem dictInsert_not_mem (d : List (String × ResolvedObs)) (k : String)
    (v : ResolvedObs) (h : d.any (fun kv => kv.1 == k) = false) :
    dictInsert d k v = d ++ [(k, v)] := by
  unfold dictInsert
  simp [h]

theorem dictInsert_mem_same (d : List (String × ResolvedObs)) (k : String)
    (v : ResolvedObs) (hmem : (k, v) ∈ d) (hnd : (d.map Prod.fst).Nodup) :
    dictInsert d k v = d := by
  unfold dictInsert
  have hany : d.any (fun kv => kv.1 == k) = true :=
    List.any_eq_true.mpr ⟨(k, v), hmem, by simp⟩
  rw [hany]
  simp only [if_true]
  have hpt : ∀ kv ∈ d, (if kv.1 == k then (k, v) else kv) = kv := by
    intro kv hkv
    obtain ⟨k1, v1⟩ := kv
    by_cases hk : k1 = k
    · subst hk
      have hv : v1 = v := keys_nodup_eq_of_mem d hnd k1 v1 v hkv hmem
      simp [hv]
    · simp [hk]
  calc d.map (fun kv => if kv.1 == k then (k, v) else kv)
      = d.map id := List.map_congr_left hpt
    _ = d := List.map_id d

theorem keys_filterMap_sublist (f : String → Option (String × ResolvedObs))
    (hf : ∀ v p, f v = some p → p.1 = v) (l : List String) :
    List.Sublist ((List.filterMap f l).map Prod.fst) l := by
  induction l with
  | nil => simp
  | cons x xs ih =>
      cases hx : f x with
      | none =>
          rw [List.filterMap_cons, hx]
          exact ih.cons x
      | some p =>
          rw [List.filterMap_cons, hx, List.map_cons, hf x p hx]
          exact ih.cons₂ x

theorem mem_dedupFirstFrom (x : String) :
    ∀ (l seen : List String), x ∈ dedupFirstFrom seen l → x ∈ l := by
  intro l
  induction l with
  | nil => intro seen h; cases h
  | cons y ys ih =>
      intro seen h
      unfold dedupFirstFrom at h
      by_cases hy : y ∈ seen
      · rw [if_pos hy] at h
        exact List.mem_cons_of_mem y (ih seen h)
      · rw [if_neg hy] at h
        rcases List.mem_cons.mp h with h1 | h2
        · exact h1 ▸ List.mem_cons_self x ys
        · exact List.mem_cons_of_mem y (ih (seen ++ [y]) h2)

theorem dedupFirstFrom_nodup :
    ∀ (l seen : List String),
      (∀ y ∈ dedupFirstFrom seen l, y ∉ seen) ∧ (dedupFirstFrom seen l).Nodup := by
  intro l
  induction l with
  | nil => intro seen; simp [dedupFirstFrom]
  | cons y ys ih =>
      intro seen
      unfold dedupFirstFrom
      by_cases hy : y ∈ seen
      · rw [if_pos hy]
        exact ih seen
      · rw [if_neg hy]
        constructor
        · intro z hz
          rcases List.mem_cons.mp hz with h1 | h2
          · rw [h1]; exact hy
          · intro hzs
            exact (ih (seen ++ [y])).1 z h2 (List.mem_append_left [y] hzs)
        · rw [List.nodup_cons]
          refine ⟨?_, (ih (seen ++ [y])).2⟩
          intro hmem
          exact (ih (seen ++ [y])).1 y hmem (List.mem_append_right seen (List.mem_singleton.mpr rfl))

theorem dedupFirstFrom_cons (seen : List String) (x : String) (xs : List String) :
    dedupFirstFrom seen (x :: xs) =
      if x ∈ seen then dedupFirstFrom seen xs
      else x :: dedupFirstFrom (seen ++ [x]) xs := rfl

theorem runLoop_catalog (vdefs : List (String × YVal)) (odl : Option String)
    (fs : String → Bool) :
    ∀ (l seen : List String) (st st' : LoopState),
      seen.Nodup →
      st.var_obs_dict = List.filterMap (acceptPair vdefs odl fs) seen →
      runLoop vdefs odl fs st l = .ok st' →
      st'.var_obs_dict =
        List.filterMap (acceptPair vdefs odl fs) (seen ++ dedupFirstFrom seen l) := by
  intro l
  induction l with
  | nil =>
      intro seen st st' hnd heq hrun
      unfold runLoop at hrun
      cases hrun
      simpa [dedupFirstFrom] using heq
  | cons var rest ih =>
      intro seen st st' hnd heq hrun
      unfold runLoop at hrun
      cases hp : processVar vdefs odl fs st var with
      | error e => rw [hp] at hrun; cases hrun
      | ok st1 =>
          rw [hp] at hrun
          have hkeys : List.Sublist ((List.filterMap (acceptPair vdefs odl fs) seen).map Prod.fst) seen :=
            keys_filterMap_sublist _ (acceptPair_fst vdefs odl fs) seen
          have hkeysnd : ((List.filterMap (acceptPair vdefs odl fs) seen).map Prod.fst).Nodup :=
            hnd.sublist hkeys
          rcases processVar_ok vdefs odl fs st var st1 hp with ⟨hnone, hcat⟩ | ⟨r, hsome, hcat⟩
          · by_cases hmem : var ∈ seen
            · rw [dedupFirstFrom_cons, if_pos hmem]
              exact ih seen st1 st' hnd (hcat.trans heq) hrun
            · rw [dedupFirstFrom_cons, if_neg hmem]
              rw [List.append_cons]
              refine ih (seen ++ [var]) st1 st' ?_ ?_ hrun
              · simp [List.nodup_append, hnd, hmem]
              · rw [hcat, heq, List.filterMap_append]
                simp [hnone]
          · by_cases hmem : var ∈ seen
            · have hmemf : (var, r) ∈ List.filterMap (acceptPair vdefs odl fs) seen :=
                List.mem_filterMap.mpr ⟨var, hmem, hsome⟩
              have hsame : dictInsert st.var_obs_dict var r = st.var_obs_dict := by
                rw [heq]
                exact dictInsert_mem_same _ var r hmemf hkeysnd
              rw [dedupFirstFrom_cons, if_pos hmem]
              refine ih seen st1 st' hnd ?_ hrun
              rw [hcat, hsame, heq]
            · have hany : st.var_obs_dict.any (fun kv => kv.1 == var) = false := by
                by_contra hc
                rw [Bool.not_eq_false, List.any_eq_true] at hc
                obtain ⟨kv, hkv, hkveq⟩ := hc
                apply hmem
                have : kv.1 ∈ (st.var_obs_dict.map Prod.fst) := List.mem_map.mpr ⟨kv, hkv, rfl⟩
                rw [heq] at this
                have := hkeys.mem this
                rwa [eq_of_beq hkveq] at this
              rw [dedupFirstFrom_cons, if_neg hmem]
              rw [List.append_cons]
              refine ih (seen ++ [var]) st1 st' ?_ ?_ hrun
              · simp [List.nodup_append, hnd, hmem]
              · rw [hcat, dictInsert_not_mem _ var r hany, heq, List.filterMap_append]
                simp [hsome]

theorem adfObsInit_ok_inv (cfg : Config) (defaultsSrc : Option (List (String × YVal)))
    (fs : String → Bool) (st : AdfObsState)
    (h : adfObsInit cfg defaultsSrc fs = .ok st) :
    (cfg.use_defaults = false → st.variable_defaults = []) ∧
    ((cfg.compare_obs = false ∧ st.var_obs_dict = [] ∧ st.checks = [] ∧
        st.warned = false) ∨
     (cfg.compare_obs = true ∧ ∃ d lst, defaultsSrc = some d ∧
        runLoop d cfg.obs_data_loc fs
          { var_obs_dict := [], notices := [], checks := [] }
          cfg.diag_var_list = .ok lst ∧
        st.var_obs_dict = lst.var_obs_dict ∧ st.checks = lst.checks ∧
        st.warned = lst.var_obs_dict.isEmpty)) := by
  unfold adfObsInit loadDefaultsFile at h
  cases hud : cfg.use_defaults with
  | false =>
      rw [hud] at h
      simp only [Bool.false_eq_true, if_false] at h
      cases hcmp : cfg.compare_obs with
      | false =>
          rw [hcmp] at h
          simp only [Bool.false_eq_true, if_false] at h
          cases h
          exact ⟨fun _ => rfl, Or.inl ⟨rfl, rfl, rfl, rfl⟩⟩
      | true =>
          rw [hcmp] at h
          simp only [if_true, List.isEmpty_nil] at h
          cases hsrc : defaultsSrc with
          | none => rw [hsrc] at h; simp at h
          | some d =>
              rw [hsrc] at h
              simp only [] at h
              cases hrun : runLoop d cfg.obs_data_loc fs
                  { var_obs_dict := [], notices := [], checks := [] }
                  cfg.diag_var_list with
              | error e => rw [hrun] at h; simp at h
              | ok lst =>
                  rw [hrun] at h
                  cases h
                  exact ⟨fun _ => rfl,
                         Or.inr ⟨rfl, d, lst, rfl, hrun, rfl, rfl, rfl⟩⟩
  | true =>
      rw [hud] at h
      simp only [if_true] at h
      cases hsrc : defaultsSrc with
      | none => rw [hsrc] at h; simp at h
      | some d =>
          rw [hsrc] at h
          simp only [] at h
          cases hcmp : cfg.compare_obs with
          | false =>
              rw [hcmp] at h
              simp only [Bool.false_eq_true, if_false] at h
              cases h
              exact ⟨fun hc => Bool.noConfusion hc, Or.inl ⟨rfl, rfl, rfl, rfl⟩⟩
          | true =>
              rw [hcmp] at h
              simp only [if_true] at h
              have hvd : (if d.isEmpty then Except.ok d
                          else (Except.ok d : Except PyErr (List (String × YVal)))) = Except.ok d := by
                split <;> rfl
              simp only [hvd] at h
              cases hrun : runLoop d cfg.obs_data_loc fs
                  { var_obs_dict := [], notices := [], checks := [] }
                  cfg.diag_var_list with
              | error e => rw [hrun] at h; simp at h
              | ok lst =>
                  rw [hrun] at h
                  cases h
                  exact ⟨fun hc => Bool.noConfusion hc,
                         Or.inr ⟨rfl, d, lst, rfl, hrun, rfl, rfl, rfl⟩⟩

/-!
Claim theorems.
-/

/-- Claim C2: for a requested variable whose default record has an `obs_file`
value, resolution first checks that value exactly as given (the primary
check happens, and wins, whatever the fallback directory is); only when the
primary path does not exist and a fallback directory is configured does it
check the fallback directory joined with the ENTIRE given value (not its
basename), accepting whichever candidate exists first as the stored
`obs_file`.  The recorded check list shows the checks and their order. -/
theorem C2_fallback_join_semantics (vdefs : List (String × YVal))
    (odl : Option String) (fs : String → Bool) (var : String)
    (ed : List (String × YVal)) (s f : String)
    (h1 : lookupDict vdefs var = some (.vdict ed))
    (h2 : lookupDict ed "obs_file" = some (.vstr s)) :
    (fs s = true →
       resolveVar vdefs odl fs var =
         .ok ([s], .accept ⟨s, obsNameOf ed s, obsVarOf ed var⟩)) ∧
    (fs s = false → odl = none →
       resolveVar vdefs odl fs var =
         .ok ([s], .skip (.obs_file_not_found s var))) ∧
    (fs s = false → odl = some f → (f == "") = false → fs (pathJoin f s) = true →
       resolveVar vdefs odl fs var =
         .ok ([s, pathJoin f s],
              .accept ⟨pathJoin f s, obsNameOf ed (pathJoin f s), obsVarOf ed var⟩)) ∧
    (fs s = false → odl = some f → (f == "") = false → fs (pathJoin f s) = false →
       resolveVar vdefs odl fs var =
         .ok ([s, pathJoin f s], .skip (.obs_file_not_found s var))) := by
  rw [resolveVar_with_file vdefs odl fs var ed s h1 h2]
  refine ⟨?_, ?_, ?_, ?_⟩
  · intro hfs; rw [hfs]; simp
  · intro hfs hodl; subst hodl; rw [hfs]; simp
  · intro hfs hodl hf hfj; subst hodl; simp [hfs, hf, hfj]
  · intro hfs hodl hf hfj; subst hodl; simp [hfs, hf, hfj]

def c2vdefs : List (String × YVal) := [("TS", .vdict [("obs_file", .vstr "ta.nc")])]

def c2ed : List (String × YVal) := [("obs_file", .vstr "ta.nc")]

def c2fs : String → Bool := fun p => p == "/obs/ta.nc"

/-- Witness for C2: the record gives `ta.nc`, absent at the primary location
but present under the fallback directory `/obs`; resolution checks `ta.nc`
first and then `/obs/ta.nc`, accepting the latter. -/
theorem C2_fallback_join_semantics_witness :
    (c2fs "ta.nc" = true →
       resolveVar c2vdefs (some "/obs") c2fs "TS" =
         .ok (["ta.nc"], .accept ⟨"ta.nc", obsNameOf c2ed "ta.nc", obsVarOf c2ed "TS"⟩)) ∧
    (c2fs "ta.nc" = false → some "/obs" = none →
       resolveVar c2vdefs (some "/obs") c2fs "TS" =
         .ok (["ta.nc"], .skip (.obs_file_not_found "ta.nc" "TS"))) ∧
    (c2fs "ta.nc" = false → some "/obs" = some "/obs" → ("/obs" == "") = false →
       c2fs (pathJoin "/obs" "ta.nc") = true →
       resolveVar c2vdefs (some "/obs") c2fs "TS" =
         .ok (["ta.nc", pathJoin "/obs" "ta.nc"],
              .accept ⟨pathJoin "/obs" "ta.nc",
                       obsNameOf c2ed (pathJoin "/obs" "ta.nc"), obsVarOf c2ed "TS"⟩)) ∧
    (c2fs "ta.nc" = false → some "/obs" = some "/obs" → ("/obs" == "") = false →
       c2fs (pathJoin "/obs" "ta.nc") = false →
       resolveVar c2vdefs (some "/obs") c2fs "TS" =
         .ok (["ta.nc", pathJoin "/obs" "ta.nc"],
              .skip (.obs_file_not_found "ta.nc" "TS"))) :=
  C2_fallback_join_semantics c2vdefs (some "/obs") c2fs "TS" c2ed "ta.nc" "/obs" rfl rfl

/-- Claim C9: when the obs_file value of a record is an absolute path that does not
exist, the pathlib join discards the fallback directory, so the fallback
check re-tests the same missing path and the variable is always skipped. -/
theorem C9_absolute_fallback_noop (vdefs : List (String × YVal))
    (odl : Option String) (fs : String → Bool) (var : String)
    (ed : List (String × YVal)) (s f : String)
    (h1 : lookupDict vdefs var = some (.vdict ed))
    (h2 : lookupDict ed "obs_file" = some (.vstr s))
    (habs : isAbsPath s = true) (hmiss : fs s = false) :
    pathJoin f s = s ∧
    outcomeOf (resolveVar vdefs odl fs var) =
      .ok (.skip (.obs_file_not_found s var)) := by
  have hj : ∀ g, pathJoin g s = s := by
    intro g
    unfold pathJoin
    rw [habs]
    simp
  refine ⟨hj f, ?_⟩
  rw [resolveVar_with_file vdefs odl fs var ed s h1 h2, hmiss]
  simp only [Bool.false_eq_true, if_false]
  cases odl with
  | none => rfl
  | some g =>
      by_cases hg : g == ""
      · simp [outcomeOf, hg]
      · simp [outcomeOf, hg, hj g, hmiss]

def c9vdefs : List (String × YVal) := [("TS", .vdict [("obs_file", .vstr "/obs/TS.nc")])]

def c9ed : List (String × YVal) := [("obs_file", .vstr "/obs/TS.nc")]

def c9fs : String → Bool := fun _ => false

/-- Witness for C9: an absolute `obs_file` value `/obs/TS.nc` missing on
disk is skipped even with fallback directory `/data`, which joins to the
very same path. -/
theorem C9_absolute_fallback_noop_witness :
    pathJoin "/data" "/obs/TS.nc" = "/obs/TS.nc" ∧
    outcomeOf (resolveVar c9vdefs (some "/data") c9fs "TS") =
      .ok (.skip (.obs_file_not_found "/obs/TS.nc" "TS")) :=
  C9_absolute_fallback_noop c9vdefs (some "/data") c9fs "TS" c9ed "/obs/TS.nc" "/data"
    rfl rfl rfl rfl

theorem catalog_filterMap (cfg : Config) (defaultsSrc : Option (List (String × YVal)))
    (fs : String → Bool) (st : AdfObsState)
    (h : adfObsInit cfg defaultsSrc fs = .ok st) :
    st.var_obs_dict = [] ∨
    ∃ d, defaultsSrc = some d ∧
      st.var_obs_dict =
        List.filterMap (acceptPair d cfg.obs_data_loc fs) (dedupFirst cfg.diag_var_list) := by
  rcases (adfObsInit_ok_inv cfg defaultsSrc fs st h).2 with
    ⟨_, hcat, _, _⟩ | ⟨_, d, lst, hsrc, hrun, hcat, _, _⟩
  · exact Or.inl hcat
  · right
    refine ⟨d, hsrc, ?_⟩
    have hchar := runLoop_catalog d cfg.obs_data_loc fs cfg.diag_var_list []
      { var_obs_dict := [], notices := [], checks := [] } lst List.nodup_nil rfl hrun
    rw [hcat, hchar]
    simp [dedupFirst]

/-- Claim C5: the keys of the resulting observation dictionary are a subset of the
requested variable list, each key appears once, and the key sequence is a
subsequence of the first occurrences of the requested list (so keys are
ordered by first occurrence and duplicates in the request yield one entry). -/
theorem C5_catalog_keys (cfg : Config) (defaultsSrc : Option (List (String × YVal)))
    (fs : String → Bool) (st : AdfObsState)
    (h : adfObsInit cfg defaultsSrc fs = .ok st) :
    (∀ k ∈ st.var_obs_dict.map Prod.fst, k ∈ cfg.diag_var_list) ∧
    (st.var_obs_dict.map Prod.fst).Nodup ∧
    List.Sublist (st.var_obs_dict.map Prod.fst) (dedupFirst cfg.diag_var_list) := by
  rcases catalog_filterMap cfg defaultsSrc fs st h with hcat | ⟨d, hsrc, hcat⟩
  · rw [hcat]
    exact ⟨by simp, by simp, by simp⟩
  · rw [hcat]
    have hsub := keys_filterMap_sublist (acceptPair d cfg.obs_data_loc fs)
      (acceptPair_fst d cfg.obs_data_loc fs) (dedupFirst cfg.diag_var_list)
    have hnodup : (dedupFirst cfg.diag_var_list).Nodup :=
      (dedupFirstFrom_nodup cfg.diag_var_list []).2
    refine ⟨?_, hnodup.sublist hsub, hsub⟩
    intro k hk
    exact mem_dedupFirstFrom k cfg.diag_var_list [] (hsub.subset hk)

def c5cfg : Config := ⟨true, ["TS", "PRECT", "TS"], true, none⟩

def c5src : Option (List (String × YVal)) :=
  some [("TS", .vdict [("obs_file", .vstr "/obs/TS.nc")])]

def c5fs : String → Bool := fun p => p == "/obs/TS.nc"

def c5st : AdfObsState :=
  ⟨true, [("TS", .vdict [("obs_file", .vstr "/obs/TS.nc")])],
   ["TS", "PRECT", "TS"], true,
   [("TS", ⟨"/obs/TS.nc", .vstr "TS.nc", .vstr "TS"⟩)],
   [.var_not_in_defaults "PRECT"], ["/obs/TS.nc", "/obs/TS.nc"], false⟩

/-- Witness for C5: the duplicated request `TS, PRECT, TS` yields a single
`TS` entry, with keys a subsequence of the first occurrences. -/
theorem C5_catalog_keys_witness :
    (∀ k ∈ c5st.var_obs_dict.map Prod.fst, k ∈ c5cfg.diag_var_list) ∧
    (c5st.var_obs_dict.map Prod.fst).Nodup ∧
    List.Sublist (c5st.var_obs_dict.map Prod.fst) (dedupFirst c5cfg.diag_var_list) :=
  C5_catalog_keys c5cfg c5src c5fs c5st rfl

theorem catalog_accept (cfg : Config) (defaultsSrc : Option (List (String × YVal)))
    (fs : String → Bool) (st : AdfObsState) (var : String) (r : ResolvedObs)
    (h : adfObsInit cfg defaultsSrc fs = .ok st)
    (hmem : (var, r) ∈ st.var_obs_dict) :
    ∃ d ed s, defaultsSrc = some d ∧ lookupDict d var = some (.vdict ed) ∧
      lookupDict ed "obs_file" = some (.vstr s) ∧
      ((fs s = true ∧ r = ⟨s, obsNameOf ed s, obsVarOf ed var⟩) ∨
       (fs s = false ∧ ∃ f, cfg.obs_data_loc = some f ∧ (f == "") = false ∧
          fs (pathJoin f s) = true ∧
          r = ⟨pathJoin f s, obsNameOf ed (pathJoin f s), obsVarOf ed var⟩)) := by
  rcases catalog_filterMap cfg defaultsSrc fs st h with hcat | ⟨d, hsrc, hcat⟩
  · rw [hcat] at hmem; cases hmem
  · rw [hcat] at hmem
    obtain ⟨v, hv, hap⟩ := List.mem_filterMap.mp hmem
    unfold acceptPair at hap
    cases hres : resolveVar d cfg.obs_data_loc fs v with
    | error e => rw [hres] at hap; cases hap
    | ok q =>
        rw [hres] at hap
        cases q with
        | mk cks vr =>
            cases vr with
            | skip n => cases hap
            | accept r0 =>
                simp only [Option.some.injEq, Prod.mk.injEq] at hap
                obtain ⟨hveq, hreq⟩ := hap
                subst hveq
                subst hreq
                obtain ⟨ed, s, hl1, hl2, hd⟩ :=
                  resolveVar_accept_inv d cfg.obs_data_loc fs v cks r0 hres
                exact ⟨d, ed, s, hsrc, hl1, hl2, hd⟩

/-- Claim C6: for every accepted variable, the stored `obs_name` equals the record
field `obs_name` when present and otherwise the file-name component of the
accepted path, and the stored `obs_var` equals the record field
`obs_var_name` when present and otherwise the variable name itself. -/
theorem C6_stored_names (cfg : Config) (defaultsSrc : Option (List (String × YVal)))
    (fs : String → Bool) (st : AdfObsState) (var : String) (r : ResolvedObs)
    (d ed : List (String × YVal))
    (h : adfObsInit cfg defaultsSrc fs = .ok st)
    (hmem : (var, r) ∈ st.var_obs_dict)
    (hsrc : defaultsSrc = some d)
    (hed : lookupDict d var = some (.vdict ed)) :
    r.obs_name = (lookupDict ed "obs_name").getD (.vstr (pathName r.obs_file)) ∧
    r.obs_var = (lookupDict ed "obs_var_name").getD (.vstr var) := by
  obtain ⟨d2, ed2, s, hsrc2, hl1, hl2, hd⟩ :=
    catalog_accept cfg defaultsSrc fs st var r h hmem
  rw [hsrc] at hsrc2
  cases hsrc2
  rw [hed] at hl1
  have hed2 : ed = ed2 := by
    cases hl1
    rfl
  subst hed2
  rcases hd with ⟨hfs, hr⟩ | ⟨hfs, f, hodl, hfe, hfj, hr⟩ <;>
    subst hr <;> exact ⟨rfl, rfl⟩

def c6cfg : Config := ⟨true, ["TS"], true, none⟩

def c6defaults : List (String × YVal) :=
  [("TS", .vdict [("obs_file", .vstr "/obs/TS.nc"),
                  ("obs_name", .vstr "ERA5"),
                  ("obs_var_name", .vstr "t2m")])]

def c6record : List (String × YVal) :=
  [("obs_file", .vstr "/obs/TS.nc"), ("obs_name", .vstr "ERA5"),
   ("obs_var_name", .vstr "t2m")]

def c6fs : String → Bool := fun p => p == "/obs/TS.nc"

def c6st : AdfObsState :=
  ⟨true, c6defaults, ["TS"], true,
   [("TS", ⟨"/obs/TS.nc", .vstr "ERA5", .vstr "t2m"⟩)], [], ["/obs/TS.nc"], false⟩

def c6res : ResolvedObs := ⟨"/obs/TS.nc", .vstr "ERA5", .vstr "t2m"⟩

/-- Witness for C6: a record with explicit `obs_name` and `obs_var_name`
fields stores exactly those values. -/
theorem C6_stored_names_witness :
    c6res.obs_name = (lookupDict c6record "obs_name").getD (.vstr (pathName c6res.obs_file)) ∧
    c6res.obs_var = (lookupDict c6record "obs_var_name").getD (.vstr "TS") :=
  C6_stored_names c6cfg (some c6defaults) c6fs c6st "TS" c6res c6defaults c6record
    rfl (by simp [c6st, c6res]) rfl rfl

/-- Claim C7: the multi-line screen warning is printed if and only if the run is a
model-versus-observations run and the resulting observation dictionary is
empty; it is recorded on a channel separate from the per-variable debug-log
notices, and the construction still returns a state (non-fatal). -/
theorem C7_warning_iff (cfg : Config) (defaultsSrc : Option (List (String × YVal)))
    (fs : String → Bool) (st : AdfObsState)
    (h : adfObsInit cfg defaultsSrc fs = .ok st) :
    st.warned = true ↔ (cfg.compare_obs = true ∧ st.var_obs_dict = []) := by
  rcases (adfObsInit_ok_inv cfg defaultsSrc fs st h).2 with
    ⟨hcmp, hcat, hchk, hw⟩ | ⟨hcmp, d, lst, hsrc, hrun, hcat, hchk, hw⟩
  · rw [hw, hcmp, hcat]
    simp
  · rw [hw, hcmp, hcat]
    simp [List.isEmpty_iff]

def c7cfg : Config := ⟨true, ["TS"], true, none⟩

def c7src : Option (List (String × YVal)) := some [("TS", .vdict [])]

def c7fs : String → Bool := fun _ => false

def c7st : AdfObsState :=
  ⟨true, [("TS", .vdict [])], ["TS"], true, [],
   [.no_obs_file_listed "TS"], [], true⟩

/-- Witness for C7: a compare run in which the only record has no `obs_file`
ends with an empty dictionary and the warning. -/
theorem C7_warning_iff_witness :
    c7st.warned = true ↔ (c7cfg.compare_obs = true ∧ c7st.var_obs_dict = []) :=
  C7_warning_iff c7cfg c7src c7fs c7st rfl

/-- Claim C8: when `compare_obs` is false, every successful construction ends with
an empty observation dictionary and an empty list of file-existence checks
(the resolution step never touches the filesystem). -/
theorem C8_no_compare_no_checks (cfg : Config)
    (defaultsSrc : Option (List (String × YVal))) (fs : String → Bool)
    (st : AdfObsState) (hcmp : cfg.compare_obs = false)
    (h : adfObsInit cfg defaultsSrc fs = .ok st) :
    st.var_obs_dict = [] ∧ st.checks = [] := by
  rcases (adfObsInit_ok_inv cfg defaultsSrc fs st h).2 with
    ⟨_, hcat, hchk, _⟩ | ⟨hc, _⟩
  · exact ⟨hcat, hchk⟩
  · rw [hcmp] at hc
    cases hc

def c8cfg : Config := ⟨true, ["TS"], false, some "/obs"⟩

def c8src : Option (List (String × YVal)) :=
  some [("TS", .vdict [("obs_file", .vstr "/obs/TS.nc")])]

def c8fs : String → Bool := fun _ => true

def c8st : AdfObsState :=
  ⟨true, [("TS", .vdict [("obs_file", .vstr "/obs/TS.nc")])], ["TS"], false,
   [], [], [], false⟩

/-- Witness for C8: with `compare_obs` false the defaults are loaded but no
resolution happens, even though the requested file exists. -/
theorem C8_no_compare_no_checks_witness :
    c8st.var_obs_dict = [] ∧ c8st.checks = [] :=
  C8_no_compare_no_checks c8cfg c8src c8fs c8st rfl rfl

def c1cfg : Config := ⟨false, ["TS"], true, none⟩

def c1src : Option (List (String × YVal)) :=
  some [("TS", .vdict [("obs_file", .vstr "/obs/TS.nc")])]

def c1fs : String → Bool := fun p => p == "/obs/TS.nc"

def c1st : AdfObsState :=
  ⟨false, [], ["TS"], true,
   [("TS", ⟨"/obs/TS.nc", .vstr "TS.nc", .vstr "TS"⟩)], [], ["/obs/TS.nc"], false⟩

/-- Counterexample to C1: with `use_defaults = false` but `compare_obs = true`
the constructor re-loads the defaults file (lines 107-119) and resolves
against it, so construction ends with a NON-empty observation dictionary,
contradicting the claim that for every filesystem state the resulting
ObservationCatalog is empty. -/
theorem C1_counterexample :
    adfObsInit c1cfg c1src c1fs = .ok c1st ∧ c1st.var_obs_dict ≠ [] :=
  ⟨rfl, by simp [c1st]⟩

/-- Amended C1: with `use_defaults = false` the DefaultsCatalog exposed to
callers is the empty mapping, and when `compare_obs` is also false the
construction completes with an empty ObservationCatalog and no warning; but
when `compare_obs` is true the defaults file is re-loaded and the catalog
need not be empty (see the counterexample). -/
theorem C1_amended_use_defaults_false (cfg : Config)
    (defaultsSrc : Option (List (String × YVal))) (fs : String → Bool)
    (st : AdfObsState) (hud : cfg.use_defaults = false)
    (h : adfObsInit cfg defaultsSrc fs = .ok st) :
    st.variable_defaults = [] ∧
    (cfg.compare_obs = false → st.var_obs_dict = [] ∧ st.warned = false) := by
  obtain ⟨hvd, hcase⟩ := adfObsInit_ok_inv cfg defaultsSrc fs st h
  refine ⟨hvd hud, ?_⟩
  intro hcmp
  rcases hcase with ⟨_, hcat, _, hw⟩ | ⟨hc, _⟩
  · exact ⟨hcat, hw⟩
  · rw [hcmp] at hc
    cases hc

def c1wcfg : Config := ⟨false, ["TS"], false, none⟩

def c1wst : AdfObsState := ⟨false, [], ["TS"], false, [], [], [], false⟩

/-- Witness for the amended C1: `use_defaults = false` and
`compare_obs = false` give the empty exposed catalog and an empty, warning-
free result, even with no defaults file present at all. -/
theorem C1_amended_use_defaults_false_witness :
    c1wst.variable_defaults = [] ∧
    (c1wcfg.compare_obs = false → c1wst.var_obs_dict = [] ∧ c1wst.warned = false) :=
  C1_amended_use_defaults_false c1wcfg none (fun _ => false) c1wst rfl rfl

def c3cfg : Config := ⟨true, ["TS"], true, none⟩

def c3src : Option (List (String × YVal)) :=
  some [("TS", .vdict [("obs_file", .vstr "ta.nc")])]

def c3fs : String → Bool := fun p => p == "ta.nc"

def c3st : AdfObsState :=
  ⟨true, [("TS", .vdict [("obs_file", .vstr "ta.nc")])], ["TS"], true,
   [("TS", ⟨"ta.nc", .vstr "ta.nc", .vstr "TS"⟩)], [], ["ta.nc"], false⟩

/-- Whether every stored `obs_file` in the observation dictionary is an
absolute path. -/
def allStoredAbs (st : AdfObsState) : Bool :=
  st.var_obs_dict.all (fun kv => isAbsPath kv.2.obs_file)

/-- Counterexample to C3: a relative `obs_file` value `ta.nc` that exists
relative to the working directory is accepted and stored as given — the code
never resolves it to an absolute path. -/
theorem C3_counterexample :
    adfObsInit c3cfg c3src c3fs = .ok c3st ∧
    c3st.var_obs_dict ≠ [] ∧ allStoredAbs c3st = false :=
  ⟨rfl, by simp [c3st], rfl⟩

/-- Amended C3: the stored `obs_file` of every accepted variable is the
candidate path that passed the existence check — the record value exactly as
given, or the fallback directory joined with that whole value — and is not
resolved to an absolute path. -/
theorem C3_amended_stored_path (cfg : Config)
    (defaultsSrc : Option (List (String × YVal))) (fs : String → Bool)
    (st : AdfObsState) (var : String) (r : ResolvedObs)
    (h : adfObsInit cfg defaultsSrc fs = .ok st)
    (hmem : (var, r) ∈ st.var_obs_dict) :
    fs r.obs_file = true ∧
    ∃ d ed s, defaultsSrc = some d ∧ lookupDict d var = some (.vdict ed) ∧
      lookupDict ed "obs_file" = some (.vstr s) ∧
      (r.obs_file = s ∨
       ∃ f, cfg.obs_data_loc = some f ∧ r.obs_file = pathJoin f s) := by
  obtain ⟨d, ed, s, hsrc, hl1, hl2, hd⟩ :=
    catalog_accept cfg defaultsSrc fs st var r h hmem
  rcases hd with ⟨hfs, hr⟩ | ⟨hfs, f, hodl, hfe, hfj, hr⟩
  · subst hr
    exact ⟨hfs, d, ed, s, hsrc, hl1, hl2, Or.inl rfl⟩
  · subst hr
    exact ⟨hfj, d, ed, s, hsrc, hl1, hl2, Or.inr ⟨f, hodl, rfl⟩⟩

def c3wcfg : Config := ⟨true, ["TS"], true, some "/data"⟩

def c3wsrc : Option (List (String × YVal)) :=
  some [("TS", .vdict [("obs_file", .vstr "ta.nc")])]

def c3wfs : String → Bool := fun p => p == "/data/ta.nc"

def c3wst : AdfObsState :=
  ⟨true, [("TS", .vdict [("obs_file", .vstr "ta.nc")])], ["TS"], true,
   [("TS", ⟨"/data/ta.nc", .vstr "ta.nc", .vstr "TS"⟩)], [],
   ["ta.nc", "/data/ta.nc"], false⟩

def c3wres : ResolvedObs := ⟨"/data/ta.nc", .vstr "ta.nc", .vstr "TS"⟩

/-- Witness for the amended C3: the accepted fallback candidate
`/data/ta.nc` is stored and is the path that passed the check. -/
theorem C3_amended_stored_path_witness :
    c3wfs c3wres.obs_file = true ∧
    ∃ d ed s, c3wsrc = some d ∧ lookupDict d "TS" = some (.vdict ed) ∧
      lookupDict ed "obs_file" = some (.vstr s) ∧
      (c3wres.obs_file = s ∨
       ∃ f, c3wcfg.obs_data_loc = some f ∧ c3wres.obs_file = pathJoin f s) :=
  C3_amended_stored_path c3wcfg c3wsrc c3wfs c3wst "TS" c3wres rfl
    (by simp [c3wst, c3wres])

def c10cfg : Config := ⟨true, ["TS"], true, none⟩

def c10src : Option (List (String × YVal)) := some [("TS", .vstr "hello")]

def c10fs : String → Bool := fun _ => false

def c10st : AdfObsState :=
  ⟨true, [("TS", .vstr "hello")], ["TS"], true, [],
   [.no_obs_file_listed "TS"], [], true⟩

/-- Counterexample to C10: the defaults entry for `TS` is a string, hence
not a mapping, yet the membership test `"obs_file" in entry` is a Python
substring test, raises nothing, and the construction completes normally with
the variable skipped — contradicting the claim that every non-mapping entry
makes the membership test raise a `TypeError` aborting construction. -/
theorem C10_counterexample :
    adfObsInit c10cfg c10src c10fs = .ok c10st ∧
    c10st.notices = [.no_obs_file_listed "TS"] :=
  ⟨rfl, rfl⟩

/-- Amended C10: when the defaults entry for a requested variable is null
(as YAML produces for an empty record), the membership test for the
`obs_file` key raises a `TypeError` that aborts the entire construction
instead of skipping only that variable; string entries, however, undergo a
substring test and do not raise there. -/
theorem C10_amended_null_entry (cfg : Config)
    (defaultsSrc : Option (List (String × YVal))) (fs : String → Bool)
    (d : List (String × YVal)) (var : String) (rest : List String)
    (hud : cfg.use_defaults = true) (hcmp : cfg.compare_obs = true)
    (hsrc : defaultsSrc = some d)
    (hl : cfg.diag_var_list = var :: rest)
    (hlook : lookupDict d var = some .vnull) :
    adfObsInit cfg defaultsSrc fs =
      .error (.typeError "argument of type NoneType is not iterable") := by
  have hres : resolveVar d cfg.obs_data_loc fs var =
      .error (.typeError "argument of type NoneType is not iterable") := by
    simp only [lookupDict, Option.map_eq_some'] at hlook
    obtain ⟨kv, hf, hkv⟩ := hlook
    unfold resolveVar
    rw [any_eq_find_isSome, hf]
    simp [pyIndex, hf, hkv, pyIn]
  unfold adfObsInit loadDefaultsFile
  rw [hud, hsrc, hcmp, hl]
  have hvd : (if d.isEmpty then Except.ok d
              else (Except.ok d : Except PyErr (List (String × YVal)))) = Except.ok d := by
    split <;> rfl
  simp only [if_true, hvd]
  unfold runLoop processVar
  rw [hres]

def c10wsrc : Option (List (String × YVal)) := some [("TS", .vnull)]

/-- Witness for the amended C10: a null entry for the first requested
variable makes the whole construction raise a `TypeError`. -/
theorem C10_amended_null_entry_witness :
    adfObsInit c10cfg c10wsrc c10fs =
      .error (.typeError "argument of type NoneType is not iterable") :=
  C10_amended_null_entry c10cfg c10wsrc c10fs [("TS", .vnull)] "TS" []
    rfl rfl rfl rfl rfl

theorem le_foldr_max (l : List Nat) (x : Nat) (hx : x ∈ l) :
    x ≤ l.foldr (fun a b => max a b) 0 := by
  induction l with
  | nil => cases hx
  | cons y ys ih =>
      rcases List.mem_cons.mp hx with h1 | h2
      · rw [h1]
        exact le_max_left y (ys.foldr (fun a b => max a b) 0)
      · exact le_trans (ih h2) (le_max_right y (ys.foldr (fun a b => max a b) 0))

theorem addr_lt_fresh (h : Heap) (a : Addr) (d : PyDict)
    (hget : heapGet h a = some d) : a < freshAddr h := by
  unfold heapGet at hget
  rw [Option.map_eq_some'] at hget
  obtain ⟨c, hf, hc⟩ := hget
  have hmem : c ∈ h.cells := List.mem_of_find?_eq_some hf
  have hca : c.1 = a := by
    have := List.find?_some hf
    exact eq_of_beq this
  have : a ∈ h.cells.map (fun c => c.1) :=
    List.mem_map.mpr ⟨c, hmem, hca⟩
  unfold freshAddr
  exact Nat.lt_succ_of_le (le_foldr_max _ a this)

theorem find_map_setcell (cells : List (Addr × PyDict)) (a b : Addr) (k : String)
    (v : PVal) (hne : b ≠ a) :
    List.find? (fun c => c.1 == b)
      (cells.map (fun c => if c.1 == a then (c.1, pdictSet c.2 k v) else c))
    = List.find? (fun c => c.1 == b) cells := by
  induction cells with
  | nil => rfl
  | cons c cs ih =>
      rw [List.map_cons]
      by_cases hca : (c.1 == a) = true
      · rw [if_pos hca]
        have hcb : (c.1 == b) = false := by
          rw [eq_of_beq hca]
          exact beq_false_of_ne (Ne.symm hne)
        rw [List.find?_cons, List.find?_cons]
        simp only [hcb]
        exact ih
      · rw [if_neg hca]
        rw [List.find?_cons, List.find?_cons]
        by_cases hcb : (c.1 == b) = true
        · simp [hcb]
        · simp only [Bool.not_eq_true] at hcb
          simp only [hcb]
          exact ih

theorem heapGet_setItem_ne (h : Heap) (a b : Addr) (k : String) (v : PVal)
    (hne : b ≠ a) : heapGet (setItem h a k v) b = heapGet h b := by
  unfold heapGet setItem
  rw [find_map_setcell h.cells a b k v hne]

theorem find_append_single (cells : List (Addr × PyDict)) (a0 : Addr)
    (d0 : PyDict) (b : Addr) (hb : b ≠ a0) :
    List.find? (fun c => c.1 == b) (cells ++ [(a0, d0)])
      = List.find? (fun c => c.1 == b) cells := by
  induction cells with
  | nil =>
      simp only [List.nil_append, List.find?_cons,
        beq_false_of_ne (Ne.symm hb)]
  | cons c cs ih =>
      rw [List.cons_append, List.find?_cons, List.find?_cons]
      by_cases hcb : (c.1 == b) = true
      · simp [hcb]
      · simp only [Bool.not_eq_true] at hcb
        simp only [hcb]
        exact ih

/-- Amended C4: the accessors return SHALLOW copies.  The copy returned by
the `var_obs_dict` property is a fresh object distinct from the internal
dictionary, and any top-level assignment the caller performs on the copy
leaves every internal heap object (in particular the internal dictionary and
all nested records) unchanged; but because the copy is shallow, the nested
per-variable records are shared, so mutating one of them through the copy
changes internal state (see the counterexample). -/
theorem C4_amended_shallow_copy (h : Heap) (a b : Addr) (d : PyDict)
    (k : String) (v : YVal) (hget : heapGet h a = some d)
    (hb : b ≠ freshAddr h) :
    (var_obs_dict_prop h a).2 ≠ a ∧
    heapGet (setItem (var_obs_dict_prop h a).1 (var_obs_dict_prop h a).2 k
        (.prim v)) b
      = heapGet h b := by
  unfold var_obs_dict_prop copyCopy
  simp only [hget]
  constructor
  · exact (addr_lt_fresh h a d hget).ne'
  · rw [heapGet_setItem_ne _ (freshAddr h) b k _ hb]
    unfold heapGet
    rw [find_append_single h.cells (freshAddr h) d b hb]

def c4heap : Heap :=
  ⟨[(0, [("TS", PVal.ref 1)]), (1, [("obs_var", PVal.prim (YVal.vstr "TS"))])]⟩

def c4copy : Heap × Addr := var_obs_dict_prop c4heap 0

def c4mutated : Heap :=
  match getItem c4copy.1 c4copy.2 "TS" with
  | some (PVal.ref b) => setItem c4copy.1 b "obs_var" (PVal.prim (YVal.vstr "MUTATED"))
  | _ => c4copy.1

/-- Counterexample to C4: the accessors use `copy.copy`, a shallow copy.
A caller that reads the `TS` record through the returned copy and mutates
its `obs_var` field changes the record seen through the INTERNAL dictionary
(address 0), so the returned value is not a defensive copy of the nested
per-variable records. -/
theorem C4_counterexample :
    nestedField c4heap 0 "TS" "obs_var" = some "TS" ∧
    nestedField c4mutated 0 "TS" "obs_var" = some "MUTATED" :=
  ⟨rfl, rfl⟩

/-- Witness for the amended C4: on a concrete heap the copy is the fresh
address 2, distinct from the internal address 0, and a top-level store into
the copy leaves the nested record cell 1 unchanged. -/
theorem C4_amended_shallow_copy_witness :
    (var_obs_dict_prop c4heap 0).2 ≠ 0 ∧
    heapGet (setItem (var_obs_dict_prop c4heap 0).1 (var_obs_dict_prop c4heap 0).2
        "EXTRA" (.prim (.vstr "x"))) 1
      = heapGet c4heap 1 :=
  C4_amended_shallow_copy c4heap 0 1 [("TS", PVal.ref 1)] "EXTRA" (.vstr "x")
    rfl (by decide)
